import Mathlib

set_option maxHeartbeats 1000000

/-!
Shallow embedding of the `ejuju/go-logs` repository (a minimal structured
logging helper written in Go) and proofs about its claims.

Modelling conventions:
* Go byte slices (`[]byte`) are modelled as `String` (every byte sequence the
  repository builds comes from strings).
* A Go `map[string]any` is modelled as an association list
  `List (String × DataVal)` with `mapSet` / `mapGet` giving the map's
  store/lookup semantics; `DataVal` enumerates the value shapes the
  repository actually stores, plus one constructor (`unserializable`) for a
  value the JSON encoder cannot represent (a Go channel or function).
* A Go `io.Writer` is modelled as `Sink`: a function from the written bytes
  to the `(n, err)` pair the writer reports.
* A Go `panic` is modelled explicitly (`SerResult.panicked`,
  `LogOutcome.panicked`, or `Option`/`Except` failure for indexing).
* Calls into the Go standard library (`encoding/json`, `fmt`, `io/fs`,
  `os`, `runtime`) are external collaborators: their outcomes are either
  parameters (filesystem walk entries, mkdir/create results, per-attempt
  write errors) or deterministic model functions (the JSON renderer).
-/

/-- A `{path, size}` entry recorded by the filesystem-snapshot option
(Go: the local `FileInfo` struct in `WithFS` / `WithFSys`). -/
structure FileInfo where
  path : String
  size : Int
deriving DecidableEq

/-- A value stored in a log's `Data` map (Go: `any`). `unserializable`
stands for a value `encoding/json` cannot encode (a channel, a function). -/
inductive DataVal where
  | str : String → DataVal
  | int : Int → DataVal
  | files : List FileInfo → DataVal
  | unserializable : DataVal
deriving DecidableEq

/-- Store into a Go map: replace the key's value if present, else add
the binding (Go: `m[k] = v`). -/
def mapSet : List (String × DataVal) → String → DataVal → List (String × DataVal)
  | [], k, v => [(k, v)]
  | (k0, v0) :: rest, k, v =>
      if k0 = k then (k, v) :: rest else (k0, v0) :: mapSet rest k v

/-- Look up in a Go map (Go: `v, ok := m[k]`). -/
def mapGet : List (String × DataVal) → String → Option DataVal
  | [], _ => none
  | (k0, v0) :: rest, k => if k0 = k then some v0 else mapGet rest k

/-- The Log record of the facade variant (src/unnamed/part_002):
`Log { Message string; Data map[string]any }`. -/
structure Log where
  Message : String
  Data : List (String × DataVal)
deriving DecidableEq

/-- `LogOption` modifies a log (Go: `type LogOption func(*Log)`). -/
abbrev LogOption := Log → Log

/-- Apply options in order (Go: `for _, opt := range opts { opt(l) }`). -/
def applyOptions (opts : List LogOption) (l : Log) : Log :=
  opts.foldl (fun acc opt => opt acc) l

/-- `NewLog` creates a log and applies the given options in order
(src/unnamed/part_002, `NewLog`). -/
def NewLog (msg : String) (opts : List LogOption) : Log :=
  applyOptions opts { Message := msg, Data := [] }

/-- Go constant `DataKeyLevel = "__level"` (src/unnamed/part_002). -/
def DataKeyLevel : String := "__level"

/-- Go constant `DataKeyFSys = "__fsys"` (src/unnamed/part_002). -/
def DataKeyFSys : String := "__fsys"

/-- `WithData` adds more data to a log (Go: `l.Data[key] = value`). -/
def WithData (key : String) (value : DataVal) : LogOption :=
  fun l => { l with Data := mapSet l.Data key value }

/-- `WithLevel` adds a severity level to the log
(Go: `l.Data[DataKeyLevel] = lvl`). -/
def WithLevel (lvl : String) : LogOption :=
  fun l => { l with Data := mapSet l.Data DataKeyLevel (DataVal.str lvl) }

/-- One visit of `fs.WalkDir`'s callback, as the external walk presents it:
the entry's path, whether it is a directory, an error the walk itself
reports for the entry (the callback's `err` argument), and the result of
`d.Info()` (an error or the file's size). -/
structure WalkEntry where
  path : String
  isDir : Bool
  walkErr : Option String
  infoErr : Option String
  size : Int
deriving DecidableEq

/-- The callback loop of `WithFS` / `WithFSys` run by `fs.WalkDir`: visits
entries in order, accumulates `{path, size}` for non-directories, and stops
with the first error (a callback returning an error aborts the walk, which
returns that error). Returns the accumulated files and the walk's error. -/
def walkFiles : List WalkEntry → List FileInfo → List FileInfo × Option String
  | [], files => (files, none)
  | e :: rest, files =>
      match e.walkErr with
      | some err => (files, some err)
      | none =>
          if e.isDir then walkFiles rest files
          else
            match e.infoErr with
            | some err => (files, some err)
            | none => walkFiles rest (files ++ [{ path := e.path, size := e.size }])

/-- `WithFS` (src/unnamed/part_004): walks the filesystem; on a walk error it
stores the error message under `key`, and then stores the collected `files`
list under `key` unconditionally (the Go body has no early return after the
error assignment). -/
def WithFS (key : String) (fsys : List WalkEntry) : LogOption :=
  fun l =>
    let r := walkFiles fsys []
    let d :=
      match r.snd with
      | some err => mapSet l.Data key (DataVal.str err)
      | none => l.Data
    { l with Data := mapSet d key (DataVal.files r.fst) }

/-- `WithFSys` (src/unnamed/part_002): same body as `WithFS` with the fixed
key `DataKeyFSys`. -/
def WithFSys (fsys : List WalkEntry) : LogOption :=
  fun l =>
    let r := walkFiles fsys []
    let d :=
      match r.snd with
      | some err => mapSet l.Data DataKeyFSys (DataVal.str err)
      | none => l.Data
    { l with Data := mapSet d DataKeyFSys (DataVal.files r.fst) }

/-- Is a `Data` value encodable by `encoding/json`? Only `unserializable`
(a channel or function value) is not. -/
def dataValEncodable : DataVal → Bool
  | DataVal.unserializable => false
  | _ => true

/-- Does the record hold a value `encoding/json` cannot encode? -/
def logHasUnencodable (l : Log) : Bool :=
  l.Data.any fun p => !dataValEncodable p.snd

/-- JSON string escaping for the model renderer (quote and backslash). -/
def jsonEscape (s : String) : String :=
  String.mk (s.data.foldr
    (fun c acc =>
      match c with
      | '\"' => '\\' :: '\"' :: acc
      | '\\' => '\\' :: '\\' :: acc
      | c => c :: acc)
    [])

/-- Model rendering of one encodable value as JSON text. -/
def dataValToJSON : DataVal → String
  | DataVal.str s => "\"" ++ jsonEscape s ++ "\""
  | DataVal.int n => toString n
  | DataVal.files fs =>
      "[" ++ String.intercalate ", "
        (fs.map fun f =>
          "\x7b\"path\": \"" ++ jsonEscape f.path ++ "\", \"size\": "
            ++ toString f.size ++ "\x7d")
        ++ "]"
  | DataVal.unserializable => ""

/-- Insertion by key for the sorted-keys rendering `encoding/json` uses
for Go maps. -/
def insertByKey (p : String × DataVal) :
    List (String × DataVal) → List (String × DataVal)
  | [] => [p]
  | q :: rest => if p.fst < q.fst then p :: q :: rest else q :: insertByKey p rest

/-- Sort map entries by key (Go's `encoding/json` marshals map keys in
sorted order). -/
def sortByKey : List (String × DataVal) → List (String × DataVal)
  | [] => []
  | p :: rest => insertByKey p (sortByKey rest)

/-- Model of `json.MarshalIndent(l, "", "\t")` on a `Log`: fails (returns
`none`, the Go error case) iff some data value is unencodable; otherwise
renders deterministically with tab indentation, `message` first, `data`
omitted when empty, map keys sorted. -/
def jsonMarshalIndent (l : Log) : Option String :=
  if logHasUnencodable l then none
  else
    some ("\x7b\n\t\"message\": \"" ++ jsonEscape l.Message ++ "\""
      ++ (if l.Data.isEmpty then ""
          else ",\n\t\"data\": \x7b\n"
            ++ String.intercalate ",\n"
              ((sortByKey l.Data).map fun p =>
                "\t\t\"" ++ jsonEscape p.fst ++ "\": " ++ dataValToJSON p.snd)
            ++ "\n\t\x7d")
      ++ "\n\x7d")

/-- The result of running a serializer: the bytes it returns, or the
message of the `panic` it raises. -/
inductive SerResult where
  | ok : String → SerResult
  | panicked : String → SerResult
deriving DecidableEq

/-- The message of the `error` value `json.MarshalIndent` produces for an
unsupported value, which `AsJSON` passes to `panic`. -/
def jsonUnsupportedMsg : String := "json: unsupported type"

/-- `AsJSON` (src/unnamed/part_002): marshals the log with indentation and
panics if the marshalling returns an error. -/
def AsJSON (l : Log) : SerResult :=
  match jsonMarshalIndent l with
  | none => SerResult.panicked jsonUnsupportedMsg
  | some b => SerResult.ok b

/-- Model of Go's `%q` verb: the string quoted with escapes. -/
def goQuote (s : String) : String := "\"" ++ jsonEscape s ++ "\""

/-- Model rendering of one value under Go's `%#v` verb. -/
def dataValGoRepr : DataVal → String
  | DataVal.str s => goQuote s
  | DataVal.int n => toString n
  | DataVal.files fs =>
      "[]logs.FileInfo\x7b" ++ String.intercalate ", "
        (fs.map fun f =>
          "logs.FileInfo\x7bPath:" ++ goQuote f.path ++ ", Size:"
            ++ toString f.size ++ "\x7d")
        ++ "\x7d"
  | DataVal.unserializable => "(chan int)(nil)"

/-- Model of `%#v` on the `Data` map, keys in Go map range order (modelled
as sorted order for determinism of the model). -/
def dataGoRepr (d : List (String × DataVal)) : String :=
  "map[string]interface \x7b\x7d\x7b" ++ String.intercalate ", "
    ((sortByKey d).map fun p => goQuote p.fst ++ ":" ++ dataValGoRepr p.snd)
    ++ "\x7d"

/-- `AsSingleLine` (src/unnamed/part_002):
`fmt.Sprintf("%q %#v", l.Message, l.Data)`. It never fails. -/
def AsSingleLine (l : Log) : SerResult :=
  SerResult.ok (goQuote l.Message ++ " " ++ dataGoRepr l.Data)

/-- `AsJSON` with the record's state after the call made explicit: the Go
body only reads through the `*Log` pointer and never assigns, so the
record it leaves behind is the one it received. -/
def AsJSONOn (l : Log) : SerResult × Log := (AsJSON l, l)

/-- `AsSingleLine` with the record's state after the call made explicit;
its Go body also never assigns through the pointer. -/
def AsSingleLineOn (l : Log) : SerResult × Log := (AsSingleLine l, l)

/-- A sink (Go: `io.Writer`): for the bytes handed to `Write`, the count
it reports written and the error it returns (if any). -/
structure Sink where
  write : String → Nat × Option String

/-- `writerWrapper` wraps one or more writers (Go: `type writerWrapper []io.Writer`). -/
abbrev writerWrapper := List Sink

/-- `newWriterWrapper` instantiates a writerWrapper from its writers. -/
def newWriterWrapper (w : List Sink) : writerWrapper := w

/-- The loop of `writerWrapper.Write`: for each writer in order,
`n, err := w.Write(b)`; append `err` to `errs` when non-nil; add `n` to
the running total. -/
def wwLoop : List Sink → String → Nat → List String → Nat × List String
  | [], _, num, errs => (num, errs)
  | w :: rest, b, num, errs =>
      let r := w.write b
      wwLoop rest b (num + r.fst)
        (errs ++ (match r.snd with | none => [] | some e => [e]))

/-- `writerWrapper.Write` (src/logger.go): writes `b` to every wrapped
writer, sums the reported counts, and returns the collected errors when at
least one writer failed (`errs != nil`), else no error. -/
def writerWrapper.Write (ww : writerWrapper) (b : String) : Nat × Option (List String) :=
  let r := wwLoop ww b 0 []
  (r.fst, if r.snd.isEmpty then none else some r.snd)

/-- `errWrapper` wraps one or more errors, modelled by their messages
(Go: `type errWrapper []error`). -/
abbrev errWrapper := List String

/-- `errWrapper.Error` (src/logger.go): `out := ""`, then for each error at
index `i`, append `", "` first when `i > 0`, then the error's message. -/
def errWrapper.Error (ew : errWrapper) : String :=
  (ew.foldl
    (fun acc err =>
      ((if acc.snd > 0 then acc.fst ++ ", " else acc.fst) ++ err, acc.snd + 1))
    ("", 0)).fst

/-- Go's `bytes.Join`: concatenate the chunks with the separator between
consecutive chunks. -/
def bytesJoin : List String → String → String
  | [], _ => ""
  | c :: rest, sep => rest.foldl (fun acc x => acc ++ sep ++ x) c

/-- Outcome of one call of the function `DefaultLogger.LoggerFunc` returns:
either it panicked (inside the serializer), or it returned, recording the
bytes handed to the sink aggregator and the aggregator's count and error. -/
inductive LogOutcome where
  | returned : String → Nat → Option (List String) → LogOutcome
  | panicked : String → LogOutcome
deriving DecidableEq

/-- `DefaultLogger` (src/unnamed/part_002): sink set, serializer, base
options and framing strings. The serializer is any `Log`-to-bytes function
that may panic (`SerResult`). -/
structure DefaultLogger where
  Writers : List Sink
  Serializer : Log → SerResult
  BaseOptions : List LogOption
  LogPrefix : String
  LogSuffix : String

/-- `DefaultLogger.LoggerFunc` (src/unnamed/part_002 and src/logger.go):
wraps the writers, and returns (with a nil error) a function that applies
the base options in order, serializes, joins
`prefix ++ serialized ++ (suffix ++ "\n")` with `bytes.Join`, and writes
the result through the writerWrapper, returning the write's error. The
mutex only serializes concurrent calls and does not change any one call's
result, so it is not part of the model. -/
def DefaultLogger.LoggerFunc (dl : DefaultLogger) : (Log → LogOutcome) × Option String :=
  (fun l =>
    let l2 := applyOptions dl.BaseOptions l
    match dl.Serializer l2 with
    | SerResult.panicked msg => LogOutcome.panicked msg
    | SerResult.ok sb =>
        let b := bytesJoin [dl.LogPrefix, sb, dl.LogSuffix ++ "\n"] ""
        let r := writerWrapper.Write (newWriterWrapper dl.Writers) b
        LogOutcome.returned b r.fst r.snd,
   none)

/-- The Log record of the level-aware variant (src/logger.go):
`Log { CreatedAt time.Time; Level string; Message string; Data map[string]any }`.
The creation instant `time.Now()` is external; it enters as a parameter. -/
structure LogV1 where
  CreatedAt : Nat
  Level : String
  Message : String
  Data : List (String × DataVal)
deriving DecidableEq

/-- `Level` / `LogLevel` is a Go `int` (src/logger.go, src/level.go). -/
abbrev LogLevel := Int

/-- Go constants `LevelUnknown .. LevelPanic` (iota 0..5). -/
def LevelUnknown : LogLevel := 0

/-- `LevelDebug = 1`. -/
def LevelDebug : LogLevel := 1

/-- `LevelInfo = 2`. -/
def LevelInfo : LogLevel := 2

/-- `LevelWarn = 3`. -/
def LevelWarn : LogLevel := 3

/-- `LevelError = 4`. -/
def LevelError : LogLevel := 4

/-- `LevelPanic = 5`. -/
def LevelPanic : LogLevel := 5

/-- `LevelLabels` (src/logger.go): the textual representations of the six
levels, indexed by the level constants. -/
def LevelLabels : List String :=
  ["UNKNOWN", "DEBUG", "INFO", "WARN", "ERROR", "PANIC"]

/-- `levelLabels` (src/level.go): the identical table of the other variant. -/
def levelLabels : List String :=
  ["UNKNOWN", "DEBUG", "INFO", "WARN", "ERROR", "PANIC"]

/-- Go array indexing `xs[i]` with an `int` index: panics (here `none`)
when the index is negative or past the end. -/
def arrayIndex (xs : List String) (i : Int) : Option String :=
  if i < 0 then none else xs.get? i.toNat

/-- `LogLevel.String` (src/level.go): `levelLabels[lvl]`, a panicking
array lookup modelled as `Option`. -/
def LogLevel.String (lvl : LogLevel) : Option String :=
  arrayIndex levelLabels lvl

/-- `New` (src/logger.go): builds the record with `Level: LevelLabels[lvl]`
(a panicking lookup, hence `Option`), then applies the options in order. -/
def New (now : Nat) (lvl : LogLevel) (msg : String)
    (opts : List (LogV1 → LogV1)) : Option LogV1 :=
  match arrayIndex LevelLabels lvl with
  | none => none
  | some lbl =>
      some (opts.foldl (fun l opt => opt l)
        { CreatedAt := now, Level := lbl, Message := msg, Data := [] })

/-- `JSONLogger` (src/json_logger.go): the file writer's behaviour enters
`Log` as a parameter, so the struct keeps only the retry budget. -/
structure JSONLogger where
  tries : Nat
deriving DecidableEq

/-- The outcome of `os.Mkdir(dirname, os.ModePerm)`: success, the
already-exists error (which `NewJSONLogger` treats as success), or another
error. -/
inductive MkdirResult where
  | ok : MkdirResult
  | errExist : MkdirResult
  | fail : String → MkdirResult
deriving DecidableEq

/-- `NewJSONLogger` (src/json_logger.go): creates the directory (ignoring
`os.ErrExist`), creates the file, and returns a logger with `tries: 5`.
The mkdir and create outcomes are the external filesystem's answers. -/
def NewJSONLogger (mk : MkdirResult) (createRes : Except String Unit) :
    Except String JSONLogger :=
  match mk with
  | MkdirResult.fail msg => Except.error ("failed to make directory: " ++ msg)
  | _ =>
      match createRes with
      | Except.error msg =>
          Except.error ("failed to make create log file: " ++ msg)
      | Except.ok _ => Except.ok { tries := 5 }

/-- The retry loop of `JSONLogger.Log`: attempt `i` marshals (continue on
error), then writes (continue on error), then breaks. `marshalErr` and
`writeErr` give the external outcomes of attempt `i`. Returns the indices
of the attempts made, in order. -/
def jsonLogLoop (marshalErr writeErr : Nat → Option String) :
    Nat → Nat → List Nat
  | _, 0 => []
  | i, rem + 1 =>
      i ::
        match marshalErr i with
        | some _ => jsonLogLoop marshalErr writeErr (i + 1) rem
        | none =>
            match writeErr i with
            | some _ => jsonLogLoop marshalErr writeErr (i + 1) rem
            | none => []

/-- `JSONLogger.Log` (src/json_logger.go): runs the bounded retry loop and
then returns `nil` unconditionally. The result pairs the attempts made
with the returned error (always `none`). -/
def JSONLogger.Log (jfl : JSONLogger) (marshalErr writeErr : Nat → Option String) :
    List Nat × Option String :=
  (jsonLogLoop marshalErr writeErr 0 jfl.tries, none)

/-! ## Helper lemmas -/

/-- The writer loop totals the reported counts and collects, in sink
order, exactly the errors of the failing sinks. -/
theorem wwLoop_spec (b : String) (ws : List Sink) :
    ∀ (num : Nat) (errs : List String),
      wwLoop ws b num errs
        = (num + (ws.map fun w => (w.write b).fst).sum,
           errs ++ ws.filterMap fun w => (w.write b).snd) := by
  induction ws with
  | nil => intro num errs; simp [wwLoop]
  | cons w rest ih =>
      intro num errs
      simp only [wwLoop, ih]
      cases h : (w.write b).snd <;>
        simp [h, List.filterMap_cons, Nat.add_assoc, List.append_assoc]

/-- The index-flag fold of `errWrapper.Error`, started past the first
element, is `String.intercalate`'s accumulator loop. -/
theorem errFoldAux (as : List String) :
    ∀ (acc : String) (n : Nat), 0 < n →
      (as.foldl
        (fun acc err =>
          ((if acc.snd > 0 then acc.fst ++ ", " else acc.fst) ++ err, acc.snd + 1))
        (acc, n)).fst
        = String.intercalate.go acc ", " as := by
  induction as with
  | nil => intro acc n _; simp [String.intercalate.go]
  | cons e rest ih =>
      intro acc n hn
      simp only [List.foldl_cons]
      rw [if_pos hn]
      rw [ih (acc ++ ", " ++ e) (n + 1) (Nat.succ_pos n)]
      simp [String.intercalate.go]

/-- `errWrapper.Error` joins the messages with `", "`. -/
theorem errWrapper_Error_eq_intercalate (ew : errWrapper) :
    errWrapper.Error ew = String.intercalate ", " ew := by
  cases ew with
  | nil => rfl
  | cons a as =>
      simp only [errWrapper.Error, List.foldl_cons]
      rw [if_neg (by decide)]
      rw [String.empty_append]
      rw [errFoldAux as a 1 (by decide)]
      simp [String.intercalate]

/-- Looking up the key just stored yields the stored value. -/
theorem mapGet_mapSet (m : List (String × DataVal)) (k : String) (v : DataVal) :
    mapGet (mapSet m k v) k = some v := by
  induction m with
  | nil => simp [mapSet, mapGet]
  | cons p rest ih =>
      by_cases h : p.fst = k
      · cases p; simp_all [mapSet, mapGet]
      · cases p; simp_all [mapSet, mapGet]

/-- `bytes.Join` of three chunks with an empty separator is plain
concatenation. -/
theorem bytesJoin_three (a b c : String) : bytesJoin [a, b, c] "" = a ++ b ++ c := by
  simp [bytesJoin, String.append_empty]

/-! ## Claim theorems -/

/-- C1. For every sink set and every byte sequence `b`,
`writerWrapper.Write` attempts a write of `b` to all sinks in construction
order (the collected errors are exactly the failing sinks' errors in that
order), returns an aggregated failure iff at least one sink's write
returned an error, and returns a byte count equal to the sum of the counts
reported by every sink's write attempt, failing sinks included. -/
theorem writerWrapper_Write_fanout (ww : writerWrapper) (b : String) :
    (writerWrapper.Write ww b).fst = (ww.map fun w => (w.write b).fst).sum ∧
    (writerWrapper.Write ww b).snd
      = (if (ww.filterMap fun w => (w.write b).snd) = [] then none
         else some (ww.filterMap fun w => (w.write b).snd)) ∧
    ((writerWrapper.Write ww b).snd.isSome ↔ ∃ w ∈ ww, (w.write b).snd ≠ none) := by
  have hspec := wwLoop_spec b ww 0 []
  refine ⟨?_, ?_, ?_⟩
  · simp [writerWrapper.Write, hspec]
  · simp [writerWrapper.Write, hspec, List.isEmpty_iff]
  · simp only [writerWrapper.Write, hspec]
    by_cases h : (ww.filterMap fun w => (w.write b).snd) = []
    · simp only [List.nil_append, h, List.isEmpty_nil, if_true]
      rw [List.filterMap_eq_nil_iff] at h
      simp only [Option.isSome_none, Bool.false_eq_true, false_iff]
      push_neg
      exact h
    · simp only [List.nil_append, List.isEmpty_iff, if_neg h,
        Option.isSome_some, true_iff]
      rw [List.filterMap_eq_nil_iff] at h
      push_neg at h
      exact h

/-- C2. When `writerWrapper.Write` returns an aggregated failure, the
failure's message (`errWrapper.Error`) is the failing sinks' error
messages joined with `", "`, in sink construction order restricted to the
failing sinks. -/
theorem errWrapper_Error_join_order (ww : writerWrapper) (b : String)
    (errs : List String)
    (h : (writerWrapper.Write ww b).snd = some errs) :
    errWrapper.Error errs
      = String.intercalate ", " (ww.filterMap fun w => (w.write b).snd) := by
  have hspec := wwLoop_spec b ww 0 []
  have herrs : errs = ww.filterMap fun w => (w.write b).snd := by
    simp only [writerWrapper.Write, hspec, List.nil_append] at h
    by_cases hE : (ww.filterMap fun w => (w.write b).snd) = []
    · simp [hE] at h
    · simp only [List.isEmpty_iff, if_neg hE, Option.some.injEq] at h
      exact h.symm
  rw [herrs, errWrapper_Error_eq_intercalate]

/-- C2 witness: two failing sinks out of three; the aggregated message
joins their errors in declaration order. -/
theorem errWrapper_Error_join_order_witness :
    errWrapper.Error ["disk full", "pipe closed"]
      = String.intercalate ", "
          (List.filterMap (fun w => (w.write "x").snd)
            [Sink.mk fun _ => (1, none),
             Sink.mk fun _ => (0, some "disk full"),
             Sink.mk fun _ => (1, some "pipe closed")]) :=
  errWrapper_Error_join_order
    [Sink.mk fun _ => (1, none),
     Sink.mk fun _ => (0, some "disk full"),
     Sink.mk fun _ => (1, some "pipe closed")] "x" ["disk full", "pipe closed"] rfl

/-- C6. Option application is last-write-wins in application order: a later
option storing the same data key overwrites the earlier value, both for
`WithData`/`WithData` pairs (through `NewLog` and directly) and for two
options storing the level key. -/
theorem option_last_write_wins (msg k : String) (v1 v2 : DataVal)
    (lvl1 lvl2 : String) (l : Log) :
    mapGet (NewLog msg [WithData k v1, WithData k v2]).Data k = some v2 ∧
    mapGet ((WithData k v2) ((WithData k v1) l)).Data k = some v2 ∧
    mapGet ((WithLevel lvl2) ((WithLevel lvl1) l)).Data DataKeyLevel
      = some (DataVal.str lvl2) := by
  refine ⟨?_, ?_, ?_⟩
  · simp [NewLog, applyOptions, WithData, mapGet_mapSet]
  · simp [WithData, mapGet_mapSet]
  · simp [WithLevel, mapGet_mapSet]

/-- C7. Both serializers are pure: a call leaves the record exactly as it
received it, and a second call on the record left by the first yields
byte-identical output. -/
theorem serializers_pure (l : Log) :
    (AsJSONOn l).snd = l ∧ (AsSingleLineOn l).snd = l ∧
    (AsJSONOn (AsJSONOn l).snd).fst = (AsJSONOn l).fst ∧
    (AsSingleLineOn (AsSingleLineOn l).snd).fst = (AsSingleLineOn l).fst :=
  ⟨rfl, rfl, rfl, rfl⟩

/-- C10. `DefaultLogger.LoggerFunc` returns a nil error for every
configuration: building the logging function never fails. -/
theorem DefaultLogger_LoggerFunc_nil_error (dl : DefaultLogger) :
    (DefaultLogger.LoggerFunc dl).snd = none := rfl

/-- C3 counterexample. A walk that collects one file and then errors: the
final value under the target key is the partial `{path, size}` list, not
the error message string — the error assignment is the value that gets
overwritten, for `WithFS` and for `WithFSys` alike. -/
theorem WithFS_error_overwritten_cex :
    walkFiles
        [{ path := "a.txt", isDir := false, walkErr := none, infoErr := none, size := 5 },
         { path := "b.txt", isDir := false, walkErr := some "permission denied",
           infoErr := none, size := 0 }] []
      = ([{ path := "a.txt", size := 5 }], some "permission denied") ∧
    mapGet ((WithFS "fs"
        [{ path := "a.txt", isDir := false, walkErr := none, infoErr := none, size := 5 },
         { path := "b.txt", isDir := false, walkErr := some "permission denied",
           infoErr := none, size := 0 }]) { Message := "m", Data := [] }).Data "fs"
      = some (DataVal.files [{ path := "a.txt", size := 5 }]) ∧
    mapGet ((WithFS "fs"
        [{ path := "a.txt", isDir := false, walkErr := none, infoErr := none, size := 5 },
         { path := "b.txt", isDir := false, walkErr := some "permission denied",
           infoErr := none, size := 0 }]) { Message := "m", Data := [] }).Data "fs"
      ≠ some (DataVal.str "permission denied") ∧
    mapGet ((WithFSys
        [{ path := "a.txt", isDir := false, walkErr := none, infoErr := none, size := 5 },
         { path := "b.txt", isDir := false, walkErr := some "permission denied",
           infoErr := none, size := 0 }]) { Message := "m", Data := [] }).Data DataKeyFSys
      = some (DataVal.files [{ path := "a.txt", size := 5 }]) := by
  exact ⟨rfl, rfl, by decide, rfl⟩

/-- C3 amended. Whatever the enumeration's outcome, the target data key
finally holds the collected partial `{path, size}` list: on an enumeration
error the error message is written first and then unconditionally
overwritten by the partial list, so the error (not the list) is what gets
discarded. -/
theorem WithFS_final_value_partial_list (key : String) (fsys : List WalkEntry)
    (l : Log) :
    mapGet ((WithFS key fsys) l).Data key
        = some (DataVal.files (walkFiles fsys []).fst) ∧
    mapGet ((WithFSys fsys) l).Data DataKeyFSys
        = some (DataVal.files (walkFiles fsys []).fst) := by
  constructor
  · cases h : (walkFiles fsys []).snd <;> simp [WithFS, h, mapGet_mapSet]
  · cases h : (walkFiles fsys []).snd <;> simp [WithFSys, h, mapGet_mapSet]

/-- C5 counterexample. A record holding a value the JSON encoder cannot
represent: `AsJSON` panics instead of returning, and a `DefaultLogger`
logging call using `AsJSON` ends in that panic rather than returning the
error to the caller. -/
theorem AsJSON_panics_cex :
    AsJSON { Message := "m", Data := [("k", DataVal.unserializable)] }
        = SerResult.panicked jsonUnsupportedMsg ∧
    (DefaultLogger.LoggerFunc
        { Writers := [], Serializer := AsJSON, BaseOptions := [],
          LogPrefix := "", LogSuffix := "" }).fst
        { Message := "m", Data := [("k", DataVal.unserializable)] }
      = LogOutcome.panicked jsonUnsupportedMsg :=
  ⟨rfl, rfl⟩

/-- C5 amended. For every log record whose data (after the base options)
holds a value the serializer cannot encode, the log call does not return
the failure as an error: `AsJSON` panics (as its own documentation states)
and the panic propagates out of the logging function. -/
theorem AsJSON_panics_on_unencodable (dl : DefaultLogger) (l : Log)
    (hser : dl.Serializer = AsJSON)
    (hbad : logHasUnencodable (applyOptions dl.BaseOptions l) = true) :
    AsJSON (applyOptions dl.BaseOptions l)
        = SerResult.panicked jsonUnsupportedMsg ∧
    (DefaultLogger.LoggerFunc dl).fst l
        = LogOutcome.panicked jsonUnsupportedMsg := by
  have hml : jsonMarshalIndent (applyOptions dl.BaseOptions l) = none := by
    simp [jsonMarshalIndent, hbad]
  have hj : AsJSON (applyOptions dl.BaseOptions l)
      = SerResult.panicked jsonUnsupportedMsg := by
    simp [AsJSON, hml]
  refine ⟨hj, ?_⟩
  simp [DefaultLogger.LoggerFunc, hser, hj]

/-- C5 amended witness: a concrete unencodable record makes the concrete
logging call panic. -/
theorem AsJSON_panics_on_unencodable_witness :
    (DefaultLogger.LoggerFunc
        { Writers := [], Serializer := AsJSON, BaseOptions := [],
          LogPrefix := "P", LogSuffix := "S" }).fst
        { Message := "m", Data := [("bad", DataVal.unserializable)] }
      = LogOutcome.panicked jsonUnsupportedMsg :=
  (AsJSON_panics_on_unencodable
    { Writers := [], Serializer := AsJSON, BaseOptions := [],
      LogPrefix := "P", LogSuffix := "S" }
    { Message := "m", Data := [("bad", DataVal.unserializable)] }
    rfl rfl).2

/-- C8. Whenever the serializer returns bytes `sb` for the record with all
base options applied in order, the byte sequence handed to the sink
aggregator by the returned logging function is exactly
`prefix ++ sb ++ suffix ++ "\n"`, and the call's result is that write's
outcome. -/
theorem LoggerFunc_frames (dl : DefaultLogger) (l : Log) (sb : String)
    (h : dl.Serializer (applyOptions dl.BaseOptions l) = SerResult.ok sb) :
    (DefaultLogger.LoggerFunc dl).fst l
      = LogOutcome.returned (dl.LogPrefix ++ sb ++ dl.LogSuffix ++ "\n")
          (writerWrapper.Write (newWriterWrapper dl.Writers)
            (dl.LogPrefix ++ sb ++ dl.LogSuffix ++ "\n")).fst
          (writerWrapper.Write (newWriterWrapper dl.Writers)
            (dl.LogPrefix ++ sb ++ dl.LogSuffix ++ "\n")).snd := by
  have hb : bytesJoin [dl.LogPrefix, sb, dl.LogSuffix ++ "\n"] ""
      = dl.LogPrefix ++ sb ++ dl.LogSuffix ++ "\n" := by
    rw [bytesJoin_three]
    rw [String.append_assoc (dl.LogPrefix ++ sb) dl.LogSuffix "\n"]
  simp [DefaultLogger.LoggerFunc, h, hb]

/-- C8 witness: a concrete configuration; the framed bytes are
`"P" ++ "B" ++ "S" ++ "\n"`. -/
theorem LoggerFunc_frames_witness :
    (DefaultLogger.LoggerFunc
        { Writers := [], Serializer := fun _ => SerResult.ok "B",
          BaseOptions := [], LogPrefix := "P", LogSuffix := "S" }).fst
        { Message := "m", Data := [] }
      = LogOutcome.returned ("P" ++ "B" ++ "S" ++ "\n")
          (writerWrapper.Write (newWriterWrapper []) ("P" ++ "B" ++ "S" ++ "\n")).fst
          (writerWrapper.Write (newWriterWrapper []) ("P" ++ "B" ++ "S" ++ "\n")).snd :=
  LoggerFunc_frames
    { Writers := [], Serializer := fun _ => SerResult.ok "B",
      BaseOptions := [], LogPrefix := "P", LogSuffix := "S" }
    { Message := "m", Data := [] } "B" rfl

/-- The retry loop makes at most `rem` attempts. -/
theorem jsonLogLoop_length (m w : Nat → Option String) :
    ∀ (rem i : Nat), (jsonLogLoop m w i rem).length ≤ rem := by
  intro rem
  induction rem with
  | zero => intro i; simp [jsonLogLoop]
  | succ r ih =>
      intro i
      have h1 := ih (i + 1)
      cases hm : m i with
      | some e =>
          simp only [jsonLogLoop, hm, List.length_cons]
          omega
      | none =>
          cases hw : w i with
          | some e =>
              simp only [jsonLogLoop, hm, hw, List.length_cons]
              omega
          | none =>
              simp only [jsonLogLoop, hm, hw, List.length_cons, List.length_nil]
              omega

/-- When every attempt in the window fails, the loop makes exactly the
attempts `i, i+1, ..., i+rem-1`. -/
theorem jsonLogLoop_all_fail (m w : Nat → Option String) :
    ∀ (rem i : Nat),
      (∀ j, j < rem → (m (i + j)).isSome ∨ (w (i + j)).isSome) →
      jsonLogLoop m w i rem = List.range' i rem := by
  intro rem
  induction rem with
  | zero => intro i _; simp [jsonLogLoop, List.range']
  | succ r ih =>
      intro i h
      have h0 := h 0 (Nat.succ_pos r)
      simp only [Nat.add_zero] at h0
      have hrest : ∀ j, j < r → (m (i + 1 + j)).isSome ∨ (w (i + 1 + j)).isSome := by
        intro j hj
        have hx := h (j + 1) (Nat.succ_lt_succ hj)
        rw [show i + (j + 1) = i + 1 + j by omega] at hx
        exact hx
      have hih := ih (i + 1) hrest
      rw [List.range'_succ]
      cases hm : m i with
      | some e => simp only [jsonLogLoop, hm, hih]
      | none =>
          cases hw : w i with
          | some e => simp only [jsonLogLoop, hm, hw, hih]
          | none => rw [hm, hw] at h0; simp at h0

/-- C4. Every logger `NewJSONLogger` builds has a retry budget of 5, and
`JSONLogger.Log` always returns a nil error: it makes at most 5 attempts,
stops after the first fully successful attempt, makes all 5 when every
attempt fails, and reports success in every case. -/
theorem JSONLogger_Log_swallows_errors (mk : MkdirResult)
    (cr : Except String Unit) (jfl : JSONLogger)
    (h : NewJSONLogger mk cr = Except.ok jfl) (m w : Nat → Option String) :
    jfl.tries = 5 ∧
    (JSONLogger.Log jfl m w).snd = none ∧
    (JSONLogger.Log jfl m w).fst.length ≤ 5 ∧
    (m 0 = none → w 0 = none → (JSONLogger.Log jfl m w).fst = [0]) ∧
    ((∀ i, i < 5 → (m i).isSome ∨ (w i).isSome) →
      (JSONLogger.Log jfl m w).fst = [0, 1, 2, 3, 4]) := by
  have ht : jfl = { tries := 5 } := by
    cases mk with
    | ok =>
        cases cr with
        | ok v => simpa [NewJSONLogger] using h.symm
        | error e => simp [NewJSONLogger] at h
    | errExist =>
        cases cr with
        | ok v => simpa [NewJSONLogger] using h.symm
        | error e => simp [NewJSONLogger] at h
    | fail msg => simp [NewJSONLogger] at h
  subst ht
  refine ⟨rfl, rfl, jsonLogLoop_length m w 5 0, ?_, ?_⟩
  · intro hm hw
    simp [JSONLogger.Log, jsonLogLoop, hm, hw]
  · intro hfail
    have h5 := jsonLogLoop_all_fail m w 5 0 (by
      intro j hj
      simpa using hfail j hj)
    show jsonLogLoop m w 0 5 = [0, 1, 2, 3, 4]
    rw [h5]
    rfl

/-- C4 witness: marshalling fails on every attempt; the call makes all 5
attempts and still reports success. -/
theorem JSONLogger_Log_swallows_errors_witness :
    (JSONLogger.Log { tries := 5 } (fun _ => some "boom") (fun _ => none)).snd
        = none ∧
    (JSONLogger.Log { tries := 5 } (fun _ => some "boom") (fun _ => none)).fst
        = [0, 1, 2, 3, 4] :=
  ⟨(JSONLogger_Log_swallows_errors MkdirResult.ok (Except.ok ())
      { tries := 5 } rfl (fun _ => some "boom") (fun _ => none)).2.1,
   (JSONLogger_Log_swallows_errors MkdirResult.ok (Except.ok ())
      { tries := 5 } rfl (fun _ => some "boom") (fun _ => none)).2.2.2.2
      (fun _ _ => Or.inl rfl)⟩

/-- C9. For a level in the declared range 0..5, `New` produces a record
whose `Level` field is that level's canonical label (the one
`LogLevel.String` and the `LevelLabels` table give); for a level outside
the range the label lookup is out of bounds and `New` panics (`none`), so
the success branch requires exactly `0 ≤ lvl ≤ 5`. -/
theorem New_level_label (now : Nat) (msg : String) (lvl : Int)
    (opts : List (LogV1 → LogV1)) :
    (0 ≤ lvl → lvl ≤ 5 → ∃ lbl,
        LogLevel.String lvl = some lbl ∧
        arrayIndex LevelLabels lvl = some lbl ∧
        New now lvl msg []
          = some { CreatedAt := now, Level := lbl, Message := msg, Data := [] }) ∧
    ((lvl < 0 ∨ 5 < lvl) → New now lvl msg opts = none) := by
  constructor
  · intro h0 h5
    interval_cases lvl
    · exact ⟨"UNKNOWN", rfl, rfl, rfl⟩
    · exact ⟨"DEBUG", rfl, rfl, rfl⟩
    · exact ⟨"INFO", rfl, rfl, rfl⟩
    · exact ⟨"WARN", rfl, rfl, rfl⟩
    · exact ⟨"ERROR", rfl, rfl, rfl⟩
    · exact ⟨"PANIC", rfl, rfl, rfl⟩
  · intro h
    have hidx : arrayIndex LevelLabels lvl = none := by
      unfold arrayIndex
      cases h with
      | inl hneg => rw [if_pos hneg]
      | inr hgt =>
          rw [if_neg (by omega)]
          apply List.get?_len_le
      
          show LevelLabels.length ≤ lvl.toNat
          have : (6 : Nat) ≤ lvl.toNat := by omega
          simpa [LevelLabels] using this
    unfold New
    rw [hidx]

/-- C9 witness: level 2 yields the label `INFO`; level 9 is out of bounds
and `New` panics. -/
theorem New_level_label_witness :
    New 7 2 "m" []
        = some { CreatedAt := 7, Level := "INFO", Message := "m", Data := [] } ∧
    New 7 9 "m" [] = none := by
  constructor
  · obtain ⟨lbl, h1, h2, h3⟩ :=
      (New_level_label 7 "m" 2 []).1 (by decide) (by decide)
    have hstr : LogLevel.String 2 = some "INFO" := rfl
    rw [hstr] at h1
    rw [← Option.some.inj h1] at h3
    exact h3
  · exact (New_level_label 7 "m" 9 []).2 (Or.inr (by decide))
